import Mathlib

/-!
Verification development for the mailmerge backend core
(task lifecycle controller, validation engine, aggregation engine,
association resolver, mail-poll watermark).

Each definition is a shallow embedding of a concrete function of the
source tree; the doc comment of every definition names the Python
function it embeds.  Machine values are modelled as `Int`/`Nat`/`Rat`,
Excel cell values as the inductive `Value`, and fallible code as
`Except`/`Option`.
-/

namespace Mailmerge

/-- An Excel cell value as seen by the Python code after pandas parsing:
`None`/NaN, `str`, `int`, `float` (modelled as `Rat`) or `bool`. -/
inductive Value where
  | vnull
  | vstr (s : String)
  | vint (n : Int)
  | vfloat (q : Rat)
  | vbool (b : Bool)
deriving Repr, DecidableEq

/-- Python `str.strip()` (whitespace at both ends removed). -/
def pyStrip (s : String) : String :=
  ⟨((s.data.dropWhile Char.isWhitespace).reverse.dropWhile Char.isWhitespace).reverse⟩

/-- Python `str.upper()` (ASCII model). -/
def pyUpper (s : String) : String := ⟨s.data.map Char.toUpper⟩

/-- Python `str.lower()` (ASCII model). -/
def pyLower (s : String) : String := ⟨s.data.map Char.toLower⟩

/-- Python `c in s` for a single character. -/
def containsChar (c : Char) (s : String) : Bool := s.data.contains c

/-- Boolean list-prefix test. -/
def listStartsWith : List Char → List Char → Bool
  | [], _ => true
  | _ :: _, [] => false
  | a :: as, b :: bs => a == b && listStartsWith as bs

/-- Boolean contiguous-sublist test. -/
def listHasSub (needle : List Char) : List Char → Bool
  | [] => needle.isEmpty
  | h :: t => listStartsWith needle (h :: t) || listHasSub needle t

/-- Python `needle in hay` substring containment. -/
def containsSub (needle hay : String) : Bool := listHasSub needle.data hay.data

/-- Python `s.endswith(suf)`. -/
def endsWithStr (suf s : String) : Bool :=
  listStartsWith suf.data.reverse s.data.reverse

/-- Python `s.split(c)` on a single-character separator
(keeps empty pieces, like Python). -/
def splitChar (c : Char) : List Char → List (List Char)
  | [] => [[]]
  | x :: xs =>
    let r := splitChar c xs
    if x = c then [] :: r
    else
      match r with
      | h :: t => (x :: h) :: t
      | [] => [[x]]

/-- Python `str(value)` for the modelled value kinds (float rendering is a
simplified stand-in; no theorem below depends on its exact text). -/
def pyStr : Value → String
  | .vnull => "None"
  | .vstr s => s
  | .vint n => toString n
  | .vfloat q => toString q
  | .vbool b => if b then "True" else "False"

/-- Whether Python `int(s)` succeeds on a string: optional sign then a
nonempty digit run, surrounding whitespace allowed. -/
def isIntLiteral (s : String) : Bool :=
  let l := (pyStrip s).data
  let l := match l with
    | '+' :: r => r
    | '-' :: r => r
    | r => r
  !l.isEmpty && l.all Char.isDigit

/-- Whether Python `float(s)` succeeds on a string (simplified decimal
form `[sign] digits [. digits]` or `[sign] . digits`; exponent and
inf/nan forms omitted — no theorem depends on them). -/
def isFloatLiteral (s : String) : Bool :=
  let l := (pyStrip s).data
  let l := match l with
    | '+' :: r => r
    | '-' :: r => r
    | r => r
  let ip := l.takeWhile Char.isDigit
  let rest := l.dropWhile Char.isDigit
  match rest with
  | [] => !ip.isEmpty
  | '.' :: fp => (!ip.isEmpty || !fp.isEmpty) && fp.all Char.isDigit
  | _ => false

/-- Value of a digit run. -/
def digitsToNat (l : List Char) : Nat :=
  l.foldl (fun acc c => acc * 10 + (c.toNat - '0'.toNat)) 0

/-- Python `float(s)` as a rational, for the NUMBER min/max comparisons
(same simplified grammar as `isFloatLiteral`). -/
def parseFloatRat (s : String) : Option Rat :=
  let l := (pyStrip s).data
  let (neg, l) := match l with
    | '-' :: r => (true, r)
    | '+' :: r => (false, r)
    | r => (false, r)
  let ip := l.takeWhile Char.isDigit
  let rest := l.dropWhile Char.isDigit
  let body : Option Rat :=
    match rest with
    | [] => if ip.isEmpty then none else some (digitsToNat ip)
    | '.' :: fp =>
      if (!ip.isEmpty || !fp.isEmpty) && fp.all Char.isDigit then
        some ((digitsToNat ip : Rat) + (digitsToNat fp : Rat) / ((10 : Rat) ^ fp.length))
      else none
    | _ => none
  body.map (fun q => if neg then -q else q)

/-- Python `int(value)` truncation toward zero for a float value. -/
def ratTrunc (q : Rat) : Int :=
  if 0 ≤ q then ⌊q⌋ else -⌊-q⌋

/-- Python `float(value)` coercion across the modelled value kinds. -/
def toRatOpt : Value → Option Rat
  | .vint n => some n
  | .vfloat q => some q
  | .vbool b => some (if b then 1 else 0)
  | .vstr s => parseFloatRat s
  | .vnull => none

/-- The blank test of `_validate_value` (tasks_utils.py line 255):
the value is None, or is a string that strips to empty. -/
def isEmptyBlank : Value → Bool
  | .vnull => true
  | .vstr s => pyStrip s == ""
  | _ => false

/-- The fixed `EMAIL` pattern of `_validate_value`:
`^[^@\s]+@[^@\s]+\.[^@\s]+$`. -/
def emailMatches (s : String) : Bool :=
  match splitChar '@' s.data with
  | [a, b] =>
    !a.isEmpty && (a ++ b).all (fun c => !c.isWhitespace) &&
      ((b.drop 1).dropLast.contains '.')
  | _ => false

/-- The fixed `PHONE` pattern of `_validate_value`: `^1[3-9]\d{9}$`. -/
def phoneMatches (s : String) : Bool :=
  match s.data with
  | '1' :: d2 :: rest =>
    ('3' ≤ d2 && d2 ≤ '9') && rest.length == 9 && rest.all Char.isDigit
  | _ => false

/-- The fixed `ID_CARD` pattern of `_validate_value`:
`\d{15}|\d{17}[\dXx]` (fullmatch). -/
def idCardMatches (s : String) : Bool :=
  let l := s.data
  (l.length == 15 && l.all Char.isDigit) ||
    (l.length == 18 && (l.take 17).all Char.isDigit &&
      (match l.getLast? with
       | some c => c.isDigit || c = 'X' || c = 'x'
       | none => false))

/-- The fixed `EMPLOYEE_ID` pattern of `_validate_value`: `\d{10}` (fullmatch). -/
def employeeIdMatches (s : String) : Bool :=
  s.data.length == 10 && s.data.all Char.isDigit

/-- Simplified stand-in for the permissive pandas date parse
succeeding in the DATE/DATETIME branch; no theorem below depends on its
exact extension, only on the branch structure around it. -/
def dateParses : Value → Bool
  | .vstr s => s.data.any Char.isDigit
  | .vint _ => true
  | .vfloat _ => true
  | .vbool _ => false
  | .vnull => false

/-- The bilingual token list of the BOOLEAN branch. -/
def boolTokens : List String := ["true", "false", "yes", "no", "是", "否", "1", "0"]

/-- A rule regex as stored: `bad` models a pattern on which `re.compile`
raises; `ok m` models a compiled pattern whose `.match` test is `m`. -/
inductive RegexSpec where
  | bad
  | ok (matcher : String → Bool)

/-- A field validation rule document (tasks_utils.py `_validate_value`
reads these keys; `none` models an absent key, and `options := some []`
models a present-but-falsy `options`). -/
structure Rule where
  type : Option String := none
  required : Bool := false
  minLength : Option Int := none
  maxLength : Option Int := none
  min : Option Rat := none
  max : Option Rat := none
  options : Option (List String) := none
  regex : Option RegexSpec := none

/-- Computes `vtype`: the upper-cased type string, or none when the
type key is absent or falsy. -/
def vtypeOf (r : Rule) : Option String :=
  match r.type with
  | none => none
  | some t => if t = "" then none else some (pyUpper t)

/-- Which branch of the `_validate_value` if-chain the rule's type selects. -/
inductive TypeTag where
  | text | integer | floatT | number | date | boolean | email | phone
  | idCard | employeeId | unknown
deriving Repr, DecidableEq

/-- Compilation of the type-dispatch if-chain of `_validate_value`
(lines 268–357): each recognized type string picks its branch, anything
else falls through to the options/regex tail. -/
def typeTagOf (r : Rule) : TypeTag :=
  match vtypeOf r with
  | none => .text
  | some t =>
    if t = "TEXT" then .text
    else if t = "INTEGER" then .integer
    else if t = "FLOAT" then .floatT
    else if t = "NUMBER" then .number
    else if t = "DATE" || t = "DATETIME" then .date
    else if t = "BOOLEAN" then .boolean
    else if t = "EMAIL" then .email
    else if t = "PHONE" then .phone
    else if t = "ID_CARD" then .idCard
    else if t = "EMPLOYEE_ID" || t = "ID" || t = "EMP_ID" then .employeeId
    else .unknown

/-- The `max_length` half of the TEXT branch. -/
def lengthMaxCheck (r : Rule) (t : String) : Bool × Option String :=
  match r.maxLength with
  | some m =>
    if (t.data.length : Int) > m then (false, some ("长度大于" ++ toString m))
    else (true, none)
  | none => (true, none)

/-- The TEXT branch length checks (`min_length` first, then `max_length`). -/
def lengthCheck (r : Rule) (t : String) : Bool × Option String :=
  match r.minLength with
  | some m =>
    if (t.data.length : Int) < m then (false, some ("长度小于" ++ toString m))
    else lengthMaxCheck r t
  | none => lengthMaxCheck r t

/-- The per-element loop of the options comma branch: first value not in
the list fails with its own reason. -/
def optionsCheckVals (opts : List String) : List String → Bool × Option String
  | [] => (true, none)
  | vv :: rest =>
    if opts.contains vv then optionsCheckVals opts rest
    else (false, some ("值\x27" ++ vv ++ "\x27不在允许的选项中"))

/-- Python `repr` of a list of strings, as interpolated into the
non-comma options failure reason. -/
def pyReprStrList (l : List String) : String :=
  "[" ++ String.intercalate ", " (l.map (fun s => "\x27" ++ s ++ "\x27")) ++ "]"

/-- The options membership block of `_validate_value` (lines 360–370):
comma-split when the raw value is a string containing a comma, plain
membership of `str(value).strip()` otherwise. -/
def optionsCheck (opts : List String) (v : Value) : Bool × Option String :=
  match v with
  | .vstr s =>
    if containsChar ',' s then
      let vals := ((splitChar ',' s.data).map (fun l => pyStrip ⟨l⟩)).filter (fun x => x ≠ "")
      optionsCheckVals opts vals
    else
      if opts.contains (pyStrip s) then (true, none)
      else (false, some ("值不在允许的选项中: " ++ pyReprStrList opts))
  | x =>
    if opts.contains (pyStrip (pyStr x)) then (true, none)
    else (false, some ("值不在允许的选项中: " ++ pyReprStrList opts))

/-- The regex block of `_validate_value` (lines 373–380). -/
def regexCheck (spec : RegexSpec) (v : Value) : Bool × Option String :=
  match spec with
  | .bad => (false, some "校验规则配置错误")
  | .ok m =>
    match v with
    | .vstr s => if m (pyStrip s) then (true, none) else (false, some "格式不符合要求")
    | _ => (false, some "格式不符合要求")

/-- The fall-through tail of `_validate_value`: the options block returns
when present and non-empty (the regex block is then never reached),
otherwise the regex block runs, otherwise pass. -/
def optionsRegexCheck (r : Rule) (v : Value) : Bool × Option String :=
  let regexTail : Bool × Option String :=
    match r.regex with
    | some spec => regexCheck spec v
    | none => (true, none)
  match r.options with
  | some opts => if opts ≠ [] then optionsCheck opts v else regexTail
  | none => regexTail

/-- The type-dispatched body of `_validate_value` after the blank check. -/
def validateCore (tag : TypeTag) (r : Rule) (v : Value) : Bool × Option String :=
  match tag with
  | .text =>
    match v with
    | .vstr s => lengthCheck r (pyStrip s)
    | _ => (true, none)
  | .integer =>
    match v with
    | .vfloat q => if q.den ≠ 1 then (false, some "不是整数类型") else (true, none)
    | .vstr s => if isIntLiteral s then (true, none) else (false, some "不是整数类型")
    | .vnull => (false, some "不是整数类型")
    | _ => (true, none)
  | .floatT =>
    match v with
    | .vstr s => if isFloatLiteral s then (true, none) else (false, some "不是浮点数类型")
    | .vnull => (false, some "不是浮点数类型")
    | _ => (true, none)
  | .number =>
    match toRatOpt v with
    | none => (false, some "不是数字类型")
    | some num =>
      match r.min with
      | some m =>
        if num < m then (false, some ("小于最小值" ++ toString m))
        else
          match r.max with
          | some mx =>
            if num > mx then (false, some ("大于最大值" ++ toString mx)) else (true, none)
          | none => (true, none)
      | none =>
        match r.max with
        | some mx =>
          if num > mx then (false, some ("大于最大值" ++ toString mx)) else (true, none)
        | none => (true, none)
  | .date =>
    if dateParses v then (true, none) else (false, some "不是有效的日期/时间格式")
  | .boolean =>
    match v with
    | .vbool _ => (true, none)
    | .vint _ => (true, none)
    | .vfloat _ => (true, none)
    | .vstr s =>
      if boolTokens.contains (pyLower (pyStrip s)) then (true, none)
      else (false, some "不是有效的布尔值")
    | .vnull => (false, some "不是有效的布尔值")
  | .email =>
    match v with
    | .vstr s =>
      if emailMatches (pyStrip s) then (true, none) else (false, some "不是有效的邮箱地址")
    | _ => (false, some "不是有效的邮箱地址")
  | .phone =>
    match v with
    | .vstr s =>
      if phoneMatches (pyStrip s) then (true, none) else (false, some "不是有效的手机号码")
    | _ => (false, some "不是有效的手机号码")
  | .idCard =>
    let s := match v with
      | .vint n => toString n
      | .vbool b => if b then "1" else "0"
      | .vfloat q => toString (ratTrunc q)
      | x => pyStrip (pyStr x)
    if idCardMatches s then (true, none) else (false, some "不是有效的身份证号")
  | .employeeId =>
    let s := match v with
      | .vint n => toString n
      | .vbool b => if b then "1" else "0"
      | .vfloat q => toString (ratTrunc q)
      | x => pyStrip (pyStr x)
    if employeeIdMatches s then (true, none) else (false, some "不是有效的工号/学号")
  | .unknown => optionsRegexCheck r v

/-- Embedding of `_validate_value(value, rule)` from
src/backend/utils/tasks_utils.py (lines 242–385): `None` rule passes,
blank value fails only when `required`, otherwise the type-dispatched
body runs. -/
def validateValue (v : Value) (rule : Option Rule) : Bool × Option String :=
  match rule with
  | none => (true, none)
  | some r =>
    if isEmptyBlank v then
      if r.required then (false, some "必填项为空") else (true, none)
    else validateCore (typeTagOf r) r v

/-- Error classification of a recorded validation failure
(perform_aggregation, tasks_utils.py line 124). -/
inductive ErrorType where
  | MISSING
  | INVALID
deriving Repr, DecidableEq

/-- Classification used by the Aggregation Engine:
MISSING exactly when the reason is the fixed required-empty string
(tasks_utils.py line 124). -/
def errorTypeFor (reason : String) : ErrorType :=
  if reason = "必填项为空" then .MISSING else .INVALID

/-- The INVALID description `f"“{val_str}”{reason}"` with
`val_str = str(val) if val is not None else "空"`
(tasks_utils.py lines 128–131). -/
def invalidDesc (val : Value) (reason : String) : String :=
  let vs := match val with
    | .vnull => "空"
    | x => pyStr x
  "“" ++ vs ++ "”" ++ reason

/-- One `FieldValidationRecord` as queued by `perform_aggregation`. -/
structure Issue where
  teacherId : Nat
  fieldName : String
  errorType : ErrorType
  desc : Option String
deriving Repr, DecidableEq

/-- A template field: display name plus optional validation rule. -/
structure TField where
  name : String
  rule : Option Rule

/-- Embedding of the per-template-field loop of `perform_aggregation`
(tasks_utils.py lines 104–145) for one attachment.  `cell` maps a
trimmed header to the attachment's first-row value for that column
(already NaN-normalized to `vnull`), `none` when the column is absent.
The Python variable `val` is threaded as `valVar : Option Value`
(`none` = not yet assigned): when the column is absent the code appends
`None` to the row but leaves `val` at its previous value, and the
validation block then reads that stale `val` — reading it while still
unassigned raises a `NameError`, modelled as `Except.error`. -/
def processRowFields (cell : String → Option Value) (teacherId : Option Nat) :
    List TField → Option Value → Except String (List Value × List Issue)
  | [], _ => .ok ([], [])
  | f :: rest, valVar =>
    let key := pyStrip f.name
    let step : Value × Option Value :=
      match cell key with
      | some v => (v, some v)
      | none => (.vnull, valVar)
    let cellVal := step.1
    let valVar2 := step.2
    let issuesHere : Except String (List Issue) :=
      match f.rule with
      | none => .ok []
      | some r =>
        match valVar2 with
        | none => .error "NameError: name \x27val\x27 is not defined"
        | some pv =>
          match validateValue pv (some r) with
          | (true, _) => .ok []
          | (false, reason) =>
            let rs := reason.getD ""
            let et := errorTypeFor rs
            let d : Option String := if et = .INVALID then some (invalidDesc pv rs) else none
            match teacherId with
            | some tid => .ok [⟨tid, f.name, et, d⟩]
            | none => .ok []
    match issuesHere with
    | .error e => .error e
    | .ok is1 =>
      match processRowFields cell teacherId rest valVar2 with
      | .error e => .error e
      | .ok (row, iss) => .ok (cellVal :: row, is1 ++ iss)

/-- Modelled from the spec (§4.4 step 4): the same per-field loop, but
the Validation Engine runs against the emitted cell itself — `null`
when the template field is absent from the attachment's headers. -/
def processRowFieldsSpec (cell : String → Option Value) (teacherId : Option Nat) :
    List TField → List Value × List Issue
  | [] => ([], [])
  | f :: rest =>
    let key := pyStrip f.name
    let cellVal := (cell key).getD .vnull
    let issuesHere : List Issue :=
      match f.rule with
      | none => []
      | some r =>
        match validateValue cellVal (some r) with
        | (true, _) => []
        | (false, reason) =>
          let rs := reason.getD ""
          let et := errorTypeFor rs
          let d : Option String := if et = .INVALID then some (invalidDesc cellVal rs) else none
          match teacherId with
          | some tid => [⟨tid, f.name, et, d⟩]
          | none => []
    let (row, iss) := processRowFieldsSpec cell teacherId rest
    (cellVal :: row, issuesHere ++ iss)

/-- The TaskStatus enum (models.py lines 26–32). -/
inductive TaskStatus where
  | DRAFT
  | ACTIVE
  | CLOSED
  | AGGREGATED
  | NEEDS_REAGGREGATION
deriving Repr, DecidableEq

/-- The task columns `check_task_status` reads (timestamps as `Int`). -/
structure TaskRow where
  status : TaskStatus
  startedTime : Option Int
  deadline : Option Int

/-- Environment of one `check_task_status` call: the current time, the
outcome of the `perform_aggregation` call (an exception is `.error`),
and the result of the `is_aggregated == False` count query of rule 3. -/
structure TickEnv where
  now : Int
  aggResult : Except String Unit
  hasUnaggregatedEmails : Bool

/-- Whether an optional timestamp is set and has passed (`task.started_time
and task.started_time <= now`). -/
def timeDue (t : Option Int) (now : Int) : Bool :=
  match t with
  | some x => x ≤ now
  | none => false

/-- Embedding of `check_task_status` from
src/backend/utils/tasks_utils.py lines 388–456 (the copy in
src/backend/services/task_service.py lines 360–418 has the identical
control flow).  The three rules are sequential `if` statements, each
testing the task's *current* (possibly just-updated) status; rule 2's
aggregation failure is caught inside the rule and leaves the status at
`CLOSED`.  Returns the final status together with the list of status
transitions applied during this one evaluation. -/
def checkTaskStatus (env : TickEnv) (t : TaskRow) : TaskStatus × List (TaskStatus × TaskStatus) :=
  let s0 := t.status
  let r1 : TaskStatus × List (TaskStatus × TaskStatus) :=
    if s0 = .DRAFT && timeDue t.startedTime env.now then
      (.ACTIVE, [(.DRAFT, .ACTIVE)])
    else (s0, [])
  let s1 := r1.1
  let r2 : TaskStatus × List (TaskStatus × TaskStatus) :=
    if s1 = .ACTIVE && timeDue t.deadline env.now then
      match env.aggResult with
      | .ok _ => (.AGGREGATED, [(.ACTIVE, .CLOSED), (.CLOSED, .AGGREGATED)])
      | .error _ => (.CLOSED, [(.ACTIVE, .CLOSED)])
    else (s1, [])
  let s2 := r2.1
  let r3 : TaskStatus × List (TaskStatus × TaskStatus) :=
    if s2 = .AGGREGATED && env.hasUnaggregatedEmails then
      (.NEEDS_REAGGREGATION, [(.AGGREGATED, .NEEDS_REAGGREGATION)])
    else (s2, [])
  (r3.1, r1.2 ++ r2.2 ++ r3.2)

/-- The full transition chain a single tick can walk along. -/
def fullChain : List (TaskStatus × TaskStatus) :=
  [(.DRAFT, .ACTIVE), (.ACTIVE, .CLOSED), (.CLOSED, .AGGREGATED),
   (.AGGREGATED, .NEEDS_REAGGREGATION)]

/-- Embedding of the per-task loop of `check_all_tasks`
(src/backend/scheduler/scheduler.py lines 86–94): every task is
evaluated in sequence; a per-task failure is caught inside the loop, so
the sweep always produces one result per task. -/
def checkAllTasks (env : TickEnv) (tasks : List TaskRow) : List TaskStatus :=
  tasks.map (fun t => (checkTaskStatus env t).1)

/-- One candidate task as the Association Resolver sees it
(`process_single_email` queries id, name, status and the template's
field display names). -/
structure CandidateTask where
  id : Nat
  name : String
  status : TaskStatus
  templateHeaders : List String

/-- The subject-containment rule of `process_single_email`
(email_receiver.py lines 153–161): when the subject is non-empty, the
first candidate task whose non-empty name occurs in the subject. -/
def subjectMatch (tasks : List CandidateTask) (subject : String) : Option Nat :=
  if subject ≠ "" then
    (tasks.find? (fun t => t.name ≠ "" && containsSub t.name subject)).map (fun t => t.id)
  else none

/-- The header-subset fallback of `process_single_email`
(email_receiver.py lines 173–190): the first candidate task whose
non-empty trimmed template header set is a subset of the attachment's
trimmed header set. -/
def headerMatch (tasks : List CandidateTask) (headers : List String) : Option Nat :=
  let hs := headers.map pyStrip
  (tasks.find? (fun t =>
    let th := t.templateHeaders.map pyStrip
    !th.isEmpty && th.all (fun x => hs.contains x))).map (fun t => t.id)

/-- The single attachment of an inbound message: its file name and the
header row parsed from it. -/
structure AttachmentData where
  fileName : String
  headers : List String

/-- Recognized spreadsheet extensions: the lower-cased file name ends
in .xlsx or .xls. -/
def isExcelName (name : String) : Bool :=
  endsWithStr ".xlsx" (pyLower name) || endsWithStr ".xls" (pyLower name)

/-- The `ReceivedEmail` row (plus the rule-3 status bump) that
`process_single_email` persists. -/
structure InboundRecord where
  taskId : Option Nat
  teacherId : Nat
  attachmentStored : Bool
  statusBumped : Bool
deriving Repr, DecidableEq

/-- Embedding of `process_single_email` from
src/backend/email_service/email_receiver.py lines 125–253.
`teacher` is the result of resolving the sender address (`none` =
unknown sender, in which case the function returns without persisting
anything — modelled as `none`).  Subject matching runs first and
regardless of the attachment; the header-subset fallback runs only for
a recognized Excel attachment and only when the subject matched
nothing; any attachment (Excel or not) is uploaded and recorded.
Finally an `AGGREGATED` associated task is bumped to
`NEEDS_REAGGREGATION`. -/
def processSingleEmail (teacher : Option Nat) (tasks : List CandidateTask)
    (subject : String) (attachment : Option AttachmentData) : Option InboundRecord :=
  match teacher with
  | none => none
  | some tid =>
    let sm := subjectMatch tasks subject
    let assoc : Option Nat × Bool :=
      match attachment with
      | some a =>
        if isExcelName a.fileName then
          match sm with
          | some i => (some i, true)
          | none => (headerMatch tasks a.headers, true)
        else (sm, true)
      | none => (sm, false)
    let taskId := assoc.1
    let bumped :=
      match taskId with
      | some i =>
        match tasks.find? (fun t => t.id = i) with
        | some t => t.status = .AGGREGATED
        | none => false
      | none => false
    some ⟨taskId, tid, assoc.2, bumped⟩

/-- One `Aggregation` table row (the columns the claims touch). -/
structure AggRow where
  id : Nat
  taskId : Nat
  filePath : String
deriving Repr, DecidableEq

/-- One `FieldValidationRecord` table row keyed by its aggregation. -/
structure IssueRow where
  aggregationId : Nat
  teacherId : Nat
  fieldName : String
  errorType : ErrorType
deriving Repr, DecidableEq

/-- The persistent state the two aggregation writers touch: the
`aggregation` and `field_validation_record` tables, the next
autoincrement id, and the object-store delete log. -/
structure AggDb where
  aggs : List AggRow
  issues : List IssueRow
  nextId : Nat
  deletedArtifacts : List String
deriving Repr, DecidableEq

/-- The artifact path `f"minio://mailmerge/aggregation/{agg.id}/{filename}"`
(tasks_utils.py line 214, api/tasks.py line 670). -/
def aggPath (aggId : Nat) (filename : String) : String :=
  "minio://mailmerge/aggregation/" ++ toString aggId ++ "/" ++ filename

/-- The aggregation filename `f"{safe_task_name}_汇总表.xlsx"` with the
forbidden filesystem characters removed (tasks_utils.py lines 167–168). -/
def aggFilename (taskName : String) : String :=
  ⟨taskName.data.filter (fun c => !("<>:\"/\\|?*".data.contains c))⟩ ++ "_汇总表.xlsx"

/-- Embedding of the persistence tail of `perform_aggregation`
(tasks_utils.py lines 163–225): if an `Aggregation` row for the task
exists, delete its old artifact, reuse the row, and clear its old
`FieldValidationRecord` rows; otherwise insert a new row; then attach
the newly computed issues and upload to the id-keyed path.  `newIssues`
is the computed `(teacher, field, error-type)` list.  Returns the new
state and the aggregation id used. -/
def performAggregationDb (db : AggDb) (taskId : Nat) (taskName : String)
    (newIssues : List (Nat × String × ErrorType)) : AggDb × Nat :=
  let filename := aggFilename taskName
  match db.aggs.find? (fun a => a.taskId = taskId) with
  | some old =>
    let deleted := if old.filePath ≠ "" then db.deletedArtifacts ++ [old.filePath]
                   else db.deletedArtifacts
    let keptIssues := db.issues.filter (fun i => i.aggregationId ≠ old.id)
    let added := newIssues.map (fun x => IssueRow.mk old.id x.1 x.2.1 x.2.2)
    let path := aggPath old.id filename
    let aggs := db.aggs.map (fun a => if a.id = old.id then { a with filePath := path } else a)
    (⟨aggs, keptIssues ++ added, db.nextId, deleted⟩, old.id)
  | none =>
    let i := db.nextId
    let path := aggPath i filename
    let added := newIssues.map (fun x => IssueRow.mk i x.1 x.2.1 x.2.2)
    (⟨db.aggs ++ [⟨i, taskId, path⟩], db.issues ++ added, i + 1, db.deletedArtifacts⟩, i)

/-- Embedding of the persistence tail of the manual REST endpoint
`aggregate_task` (src/backend/api/tasks.py lines 644–683): it always
inserts a fresh `Aggregation` row, never looks for or deletes a prior
one, and records no `FieldValidationRecord` rows at all. -/
def aggregateTaskEndpointDb (db : AggDb) (taskId : Nat) (filename : String) : AggDb × Nat :=
  let i := db.nextId
  let path := aggPath i filename
  (⟨db.aggs ++ [⟨i, taskId, path⟩], db.issues, i + 1, db.deletedArtifacts⟩, i)

/-- State of the watermark file `.last_email_fetch_ts`:
absent, unreadable (read raises), or holding a timestamp. -/
inductive TsFile where
  | absent
  | unreadable
  | stored (t : Int)
deriving Repr, DecidableEq

/-- Embedding of `read_last_fetch_timestamp`
(src/backend/scheduler/utils.py lines 8–21): a missing file or any
read/parse failure yields `None`. -/
def readLastFetchTimestamp : TsFile → Option Int
  | .absent => none
  | .unreadable => none
  | .stored t => some t

/-- Max of two optional timestamps, keeping whichever is present. -/
def optMax (a b : Option Int) : Option Int :=
  match a, b with
  | some x, some y => some (max x y)
  | some x, none => some x
  | none, y => y

/-- The skip test of the poll loop:
`if since_ts and email_dt: if email_dt <= since_ts: continue`. -/
def skipMsg (since m : Option Int) : Bool :=
  match since, m with
  | some s, some t => t ≤ s
  | _, _ => false

/-- Embedding of the message loop of `process_secretary_emails`
(src/backend/email_service/email_receiver.py lines 84–123).  Each
message is represented by its parsed `Date` header (`none` when
unparsable).  The loop records the greatest timestamp among *all*
fetched messages, then skips a message when `since` is set and its
timestamp is at or before `since`; everything else is handed to
`process_single_email`.  Returns the greatest timestamp seen and the
list of processed messages (their timestamps). -/
def sweepMailbox (since : Option Int) : List (Option Int) → Option Int × List (Option Int)
  | [] => (none, [])
  | m :: rest =>
    let r := sweepMailbox since rest
    (optMax m r.1, if skipMsg since m then r.2 else m :: r.2)

/-- Embedding of `fetch_emails_job`
(src/backend/scheduler/scheduler.py lines 103–135): read the stored
watermark, sweep with it, and persist the greatest timestamp seen if
there was one (otherwise the file is left as it was). -/
def fetchEmailsJob (file : TsFile) (msgs : List (Option Int)) : TsFile × List (Option Int) :=
  let since := readLastFetchTimestamp file
  let r := sweepMailbox since msgs
  (match r.1 with
   | some l => .stored l
   | none => file, r.2)

/-- The same rule with the `options` and `regex` keys removed. -/
def withoutOptionsRegex (r : Rule) : Rule := { r with options := none, regex := none }

/-! ## Theorems -/

/-- For every recognized type branch the result of `_validate_value` never
consults `options` or `regex` (each branch returns before the fall-through
tail is reached). -/
theorem validateCore_no_options (tag : TypeTag) (h : tag ≠ .unknown) (r : Rule) (v : Value) :
    validateCore tag r v = validateCore tag (withoutOptionsRegex r) v := by
  cases tag <;> cases v <;> first
    | rfl
    | exact absurd rfl h

/-- C1: FALSE on the code. `check_task_status` uses three sequential `if`
statements, each testing the current (possibly just-updated) status, so a
DRAFT task whose start time and deadline have both passed activates,
closes and aggregates within one evaluation: three transitions in one
tick, the first of them DRAFT→ACTIVE, contradicting both "at most one
transition except the close-then-aggregate pair" and "a task that just
activated waits for the next tick". -/
theorem C1_counterexample :
    checkTaskStatus ⟨0, .ok (), false⟩ ⟨.DRAFT, some 0, some 0⟩
      = (.AGGREGATED, [(.DRAFT, .ACTIVE), (.ACTIVE, .CLOSED), (.CLOSED, .AGGREGATED)]) := by
  rfl

/-- C1 (amended): per scheduler tick the transitions applied to a task by
`check_task_status` form a consecutive segment of the chain
DRAFT→ACTIVE→CLOSED→AGGREGATED→NEEDS_REAGGREGATION — each rule fires at
most once and in this order, but up to four transitions can chain in a
single tick, because each rule sees the status its predecessor just
wrote. -/
theorem C1_amended (env : TickEnv) (t : TaskRow) :
    (checkTaskStatus env t).2 <:+: fullChain := by
  obtain ⟨s, st, dl⟩ := t
  obtain ⟨now, aggR, hasNew⟩ := env
  cases hb1 : timeDue st now <;>
    cases hb2 : timeDue dl now <;>
      cases aggR <;> cases hasNew <;> cases s <;>
        simp [checkTaskStatus, hb1, hb2] <;> decide

/-- C4: `rule = None` always passes; a null/blank value passes unless
`required`, in which case it fails with the fixed reason `必填项为空`,
independent of the rule's `type`, and the Aggregation Engine's error-type
mapping classifies exactly that reason as MISSING. -/
theorem C4_blank_required_missing (v : Value) (r : Rule) :
    validateValue v none = (true, none) ∧
    (isEmptyBlank v = true →
      (r.required = true →
        validateValue v (some r) = (false, some "必填项为空") ∧
        errorTypeFor "必填项为空" = .MISSING) ∧
      (r.required = false → validateValue v (some r) = (true, none))) ∧
    (∀ reason, reason ≠ "必填项为空" → errorTypeFor reason = .INVALID) := by
  refine ⟨rfl, fun hb => ⟨fun hr => ⟨?_, by decide⟩, fun hr => ?_⟩, fun reason hne => ?_⟩
  · simp [validateValue, hb, hr]
  · simp [validateValue, hb, hr]
  · simp [errorTypeFor, hne]

/-- C4 witness: the null cell under a required EMAIL-typed rule fails with
the required-field-empty reason, classified MISSING. -/
theorem C4_blank_required_missing_witness :
    isEmptyBlank Value.vnull = true ∧
    ({ required := true, type := some "EMAIL" : Rule }).required = true ∧
    (validateValue Value.vnull (some { required := true, type := some "EMAIL" })
        = (false, some "必填项为空") ∧
      errorTypeFor "必填项为空" = .MISSING) :=
  ⟨rfl, rfl,
    ((C4_blank_required_missing Value.vnull { required := true, type := some "EMAIL" }).2.1
      rfl).1 rfl⟩

/-- C2: FALSE on the code. A value outside the `options` list passes
validation when the rule's type is TEXT, because the TEXT branch returns
before the options check is reached. -/
theorem C2_counterexample :
    validateValue (.vstr "B") (some { type := some "TEXT", options := some ["A"] })
      = (true, none) := by
  rfl

/-- C2 (amended): the `options` and `regex` checks run only when the
rule's type is *unrecognized* (not TEXT/absent, INTEGER, FLOAT, NUMBER,
DATE, DATETIME, BOOLEAN, EMAIL, PHONE, ID_CARD, EMPLOYEE_ID/ID/EMP_ID):
for every recognized type the result is independent of `options` and
`regex`; for an unrecognized type and a non-blank value, a present
non-empty `options` list decides the result by (comma-split) membership
— and on success returns without ever consulting `regex` — while
`regex` is consulted only when `options` is absent or empty. -/
theorem C2_amended (r : Rule) (v : Value) :
    (typeTagOf r ≠ .unknown →
      validateValue v (some r) = validateValue v (some (withoutOptionsRegex r))) ∧
    (typeTagOf r = .unknown → isEmptyBlank v = false →
      (∀ opts, r.options = some opts → opts ≠ [] →
        validateValue v (some r) = optionsCheck opts v) ∧
      ((r.options = none ∨ r.options = some []) →
        (∀ sp, r.regex = some sp → validateValue v (some r) = regexCheck sp v) ∧
        (r.regex = none → validateValue v (some r) = (true, none)))) := by
  constructor
  · intro hn
    unfold validateValue
    by_cases hb : isEmptyBlank v = true
    · simp [hb, withoutOptionsRegex]
    · simp [hb]
      have htag : typeTagOf (withoutOptionsRegex r) = typeTagOf r := rfl
      rw [htag]
      exact validateCore_no_options _ hn r v
  · intro hu hb
    constructor
    · intro opts ho hne
      simp [validateValue, hb, hu, validateCore, optionsRegexCheck, ho, hne]
    · rintro (ho | ho) <;>
        exact ⟨fun sp hsp => by simp [validateValue, hb, hu, validateCore, optionsRegexCheck, ho, hsp],
               fun hsp => by simp [validateValue, hb, hu, validateCore, optionsRegexCheck, ho, hsp]⟩

/-- C2 witness: for an unrecognized type the options membership check does
apply and rejects a non-member. -/
theorem C2_amended_witness :
    typeTagOf { type := some "CHOICE", options := some ["A"] } = .unknown ∧
    isEmptyBlank (.vstr "B") = false ∧
    validateValue (.vstr "B") (some { type := some "CHOICE", options := some ["A"] })
      = optionsCheck ["A"] (.vstr "B") :=
  ⟨rfl, rfl,
    ((C2_amended { type := some "CHOICE", options := some ["A"] } (.vstr "B")).2
      rfl rfl).1 ["A"] rfl (by decide)⟩

/-- C3: the code diverges from the claim. When a template field's trimmed
name is absent from the attachment headers, `perform_aggregation` emits
`null` for the cell but validates the *stale* Python variable `val` left
over from the previous field — here field B is required and its cell is
null, yet no MISSING issue is recorded because the previous field's
value "x" is validated instead; the spec-faithful loop records the
MISSING issue.  If the very first field is absent, `val` is still
unassigned and the whole aggregation aborts with a NameError. -/
theorem C3_stale_value_bug :
    processRowFields (fun k => if k = "A" then some (.vstr "x") else none) (some 7)
        [⟨"A", none⟩, ⟨"B", some { required := true }⟩] none
      = .ok ([.vstr "x", .vnull], []) ∧
    processRowFieldsSpec (fun k => if k = "A" then some (.vstr "x") else none) (some 7)
        [⟨"A", none⟩, ⟨"B", some { required := true }⟩]
      = ([.vstr "x", .vnull], [⟨7, "B", .MISSING, none⟩]) ∧
    processRowFields (fun _ => none) (some 7) [⟨"B", some { required := true }⟩] none
      = .error "NameError: name \x27val\x27 is not defined" := by
  refine ⟨rfl, rfl, rfl⟩

/-- C5: the subject-containment rule has priority. For any inbound
message from a known sender whose subject has a subject match, the
resolved task is that match, whatever the attachment (including one
whose headers contain another task's full template field set): the
header-subset fallback is consulted only when `subjectMatch` is `none`. -/
theorem C5_subject_priority (tid : Nat) (tasks : List CandidateTask)
    (subject : String) (att : Option AttachmentData) (i : Nat)
    (h : subjectMatch tasks subject = some i) :
    (processSingleEmail (some tid) tasks subject att).map (fun rec => rec.taskId)
      = some (some i) := by
  cases att with
  | none => simp [processSingleEmail, h]
  | some a =>
    by_cases he : isExcelName a.fileName = true <;>
      simp [processSingleEmail, h, he]

/-- C5 witness: "Alpha" occurs in the subject while the attachment's
headers contain task Beta's full template field set; the subject match
(task 1) wins. -/
theorem C5_subject_priority_witness :
    subjectMatch [⟨1, "Alpha", .ACTIVE, ["X"]⟩, ⟨2, "Beta", .ACTIVE, ["H1", "H2"]⟩]
        "Re: Alpha data" = some 1 ∧
    (processSingleEmail (some 9)
        [⟨1, "Alpha", .ACTIVE, ["X"]⟩, ⟨2, "Beta", .ACTIVE, ["H1", "H2"]⟩]
        "Re: Alpha data" (some ⟨"reply.xlsx", ["H1", "H2"]⟩)).map (fun rec => rec.taskId)
      = some (some 1) :=
  ⟨rfl,
    C5_subject_priority 9
      [⟨1, "Alpha", .ACTIVE, ["X"]⟩, ⟨2, "Beta", .ACTIVE, ["H1", "H2"]⟩]
      "Re: Alpha data" (some ⟨"reply.xlsx", ["H1", "H2"]⟩) 1 rfl⟩

/-- C6: FALSE on the code. A message with no attachment at all is still
associated by subject: here the subject contains the task name "Report"
and the message is persisted with `task_id = 1`, not `None`. -/
theorem C6_counterexample :
    processSingleEmail (some 1) [⟨1, "Report", .ACTIVE, ["F"]⟩] "Report due" none
      = some ⟨some 1, 1, false, false⟩ := by
  rfl

/-- C6 (amended): a missing or non-spreadsheet attachment only disables
the header-subset fallback; subject matching still applies, so the
message is persisted with the subject-match result as its task reference
(and with a null task reference only when no task name occurs in the
subject). -/
theorem C6_amended (tid : Nat) (tasks : List CandidateTask) (subject : String)
    (att : Option AttachmentData)
    (h : att = none ∨ ∃ a, att = some a ∧ isExcelName a.fileName = false) :
    (processSingleEmail (some tid) tasks subject att).map (fun rec => rec.taskId)
      = some (subjectMatch tasks subject) := by
  rcases h with h | ⟨a, ha, he⟩
  · subst h
    simp [processSingleEmail]
  · subst ha
    simp [processSingleEmail, he]

/-- C6 witness: the amended rule evaluated on an attachment-less message
whose subject names the task. -/
theorem C6_amended_witness :
    (processSingleEmail (some 1) [⟨1, "Report", .ACTIVE, ["F"]⟩] "Report due" none).map
        (fun rec => rec.taskId)
      = some (subjectMatch [⟨1, "Report", .ACTIVE, ["F"]⟩] "Report due") :=
  C6_amended 1 [⟨1, "Report", .ACTIVE, ["F"]⟩] "Report due" none (Or.inl rfl)

/-- C7: FALSE on the code in its persistence half. A message from an
unknown sender is logged and *dropped* — `process_single_email` returns
before creating any `ReceivedEmail` row — rather than persisted with a
null task reference. -/
theorem C7_counterexample :
    processSingleEmail none [⟨1, "Report", .ACTIVE, ["F"]⟩] "Report due"
        (some ⟨"reply.xlsx", ["F"]⟩) = none := by
  rfl

/-- C7 (amended): a message whose sender resolves to no known recipient
is not persisted at all (no `InboundMessage` row is created), and in
particular no task status transition occurs as a result of processing
it. -/
theorem C7_amended (tasks : List CandidateTask) (subject : String)
    (att : Option AttachmentData) :
    processSingleEmail none tasks subject att = none := by
  rfl

/-- C9: when the aggregation chained to a deadline-triggered close raises,
the task stays CLOSED — the single transition applied is ACTIVE→CLOSED —
the exception is absorbed inside the per-task evaluation, and the sweep
still yields one result per task. -/
theorem C9_agg_failure_keeps_closed (env : TickEnv) (t : TaskRow) (msg : String)
    (hagg : env.aggResult = .error msg) (hst : t.status = .ACTIVE)
    (hdl : timeDue t.deadline env.now = true) (tasks : List TaskRow) :
    (checkTaskStatus env t).1 = .CLOSED ∧
    (checkTaskStatus env t).2 = [(.ACTIVE, .CLOSED)] ∧
    (checkAllTasks env tasks).length = tasks.length := by
  refine ⟨?_, ?_, by simp [checkAllTasks]⟩ <;>
    simp [checkTaskStatus, hst, hdl, hagg]

/-- C9 witness: a concrete ACTIVE task past its deadline whose
aggregation raises ends the tick CLOSED, and the sweep covers both
tasks of the list. -/
theorem C9_agg_failure_keeps_closed_witness :
    (checkTaskStatus ⟨0, .error "upload failed", true⟩ ⟨.ACTIVE, none, some 0⟩).1 = .CLOSED ∧
    (checkTaskStatus ⟨0, .error "upload failed", true⟩ ⟨.ACTIVE, none, some 0⟩).2
      = [(.ACTIVE, .CLOSED)] ∧
    (checkAllTasks ⟨0, .error "upload failed", true⟩
        [⟨.ACTIVE, none, some 0⟩, ⟨.DRAFT, none, none⟩]).length
      = [⟨.ACTIVE, none, some 0⟩, (⟨.DRAFT, none, none⟩ : TaskRow)].length :=
  C9_agg_failure_keeps_closed ⟨0, .error "upload failed", true⟩ ⟨.ACTIVE, none, some 0⟩
    "upload failed" rfl rfl rfl [⟨.ACTIVE, none, some 0⟩, ⟨.DRAFT, none, none⟩]

/-- Auxiliary: `find?` skips a prefix in which nothing matches. -/
theorem find_append_right {α : Type} (p : α → Bool) (l₁ l₂ : List α)
    (h : l₁.find? p = none) : (l₁ ++ l₂).find? p = l₂.find? p := by
  induction l₁ with
  | nil => simp
  | cons a t ih =>
    cases hpa : p a with
    | true =>
      rw [List.find?_cons_of_pos _ hpa] at h
      exact absurd h (by simp)
    | false =>
      rw [List.find?_cons_of_neg _ (by simp [hpa])] at h
      rw [List.cons_append, List.find?_cons_of_neg _ (by simp [hpa])]
      exact ih h

/-- Auxiliary: filtering a mapped list by a predicate the map preserves,
when nothing satisfied it before the map. -/
theorem filter_map_none {α : Type} (p : α → Bool) (f : α → α)
    (hf : ∀ x, p (f x) = p x) (l : List α) (h : ∀ x ∈ l, p x = false) :
    (l.map f).filter p = [] := by
  induction l with
  | nil => rfl
  | cons a t ih =>
    simp only [List.map_cons, List.filter_cons, hf a, h a (by simp)]
    exact ih (fun x hx => h x (by simp [hx]))

/-- The id-keyed artifact path is never the empty string. -/
theorem aggPath_ne_empty (i : Nat) (fn : String) : aggPath i fn ≠ "" := by
  intro h
  have happ : ∀ s t : String, (s ++ t).data = s.data ++ t.data := fun ⟨_⟩ ⟨_⟩ => rfl
  have hd : (aggPath i fn).data = [] := by rw [h]
  rw [aggPath, happ, happ, happ] at hd
  rcases List.append_eq_nil.mp hd with ⟨hd1, -⟩
  rcases List.append_eq_nil.mp hd1 with ⟨hd2, -⟩
  rcases List.append_eq_nil.mp hd2 with ⟨hd3, -⟩
  exact absurd hd3 (by decide)

/-- C8: FALSE on the code for the manual REST operation. The
`/tasks/{id}/aggregate` endpoint inserts a fresh `Aggregation` row on
every call: two successive calls on the same task leave two rows with
distinct ids (0 and 1) and distinct id-derived artifact paths, the
first artifact is never deleted, and no validation issues are recorded
by either call. -/
theorem C8_counterexample :
    (((aggregateTaskEndpointDb
        ((aggregateTaskEndpointDb ⟨[], [], 0, []⟩ 1 "T_汇总表.xlsx").1)
        1 "T_汇总表.xlsx").1).aggs.filter (fun a => a.taskId = 1)).length = 2 ∧
    (((aggregateTaskEndpointDb
        ((aggregateTaskEndpointDb ⟨[], [], 0, []⟩ 1 "T_汇总表.xlsx").1)
        1 "T_汇总表.xlsx").1).aggs.map (fun a => a.id)) = [0, 1] ∧
    (((aggregateTaskEndpointDb
        ((aggregateTaskEndpointDb ⟨[], [], 0, []⟩ 1 "T_汇总表.xlsx").1)
        1 "T_汇总表.xlsx").1).deletedArtifacts) = [] ∧
    (((aggregateTaskEndpointDb
        ((aggregateTaskEndpointDb ⟨[], [], 0, []⟩ 1 "T_汇总表.xlsx").1)
        1 "T_汇总表.xlsx").1).issues) = [] := by
  refine ⟨rfl, rfl, rfl, rfl⟩

/-- C8 (amended): the claimed replace-in-place idempotence holds for the
scheduler's `perform_aggregation` routine, not for the manual endpoint:
starting from a state with no aggregation for the task (and with the
next id fresh for the issue table), two successive calls reuse one
`Aggregation` row with the same id, the id-derived artifact path is
stable, the second call deletes the first call's artifact, and the
issue rows left at the end are exactly the second call's computed set
(alongside the untouched rows of other aggregations). -/
theorem C8_amended (db : AggDb) (tid : Nat) (name : String)
    (is1 is2 : List (Nat × String × ErrorType))
    (hnone : db.aggs.find? (fun a => a.taskId = tid) = none)
    (hfresh : ∀ r ∈ db.issues, r.aggregationId ≠ db.nextId) :
    (performAggregationDb db tid name is1).2 = db.nextId ∧
    (performAggregationDb (performAggregationDb db tid name is1).1 tid name is2).2
      = db.nextId ∧
    ((performAggregationDb (performAggregationDb db tid name is1).1 tid name is2).1.aggs.filter
        (fun a => a.taskId = tid))
      = [⟨db.nextId, tid, aggPath db.nextId (aggFilename name)⟩] ∧
    (performAggregationDb (performAggregationDb db tid name is1).1 tid name is2).1.deletedArtifacts
      = db.deletedArtifacts ++ [aggPath db.nextId (aggFilename name)] ∧
    (performAggregationDb (performAggregationDb db tid name is1).1 tid name is2).1.issues
      = db.issues ++ is2.map (fun x => IssueRow.mk db.nextId x.1 x.2.1 x.2.2) := by
  obtain ⟨aggs, issues, nid, dels⟩ := db
  simp only at hnone hfresh
  have h1 : performAggregationDb ⟨aggs, issues, nid, dels⟩ tid name is1
      = (⟨aggs ++ [⟨nid, tid, aggPath nid (aggFilename name)⟩],
          issues ++ is1.map (fun x => IssueRow.mk nid x.1 x.2.1 x.2.2), nid + 1, dels⟩, nid) := by
    simp only [performAggregationDb]
    rw [hnone]
  have hfind2 : (aggs ++ [(⟨nid, tid, aggPath nid (aggFilename name)⟩ : AggRow)]).find?
      (fun a => a.taskId = tid)
      = some ⟨nid, tid, aggPath nid (aggFilename name)⟩ := by
    rw [find_append_right _ _ _ hnone]
    exact List.find?_cons_of_pos _ (by simp)
  have h2 : performAggregationDb
      (⟨aggs ++ [⟨nid, tid, aggPath nid (aggFilename name)⟩],
        issues ++ is1.map (fun x => IssueRow.mk nid x.1 x.2.1 x.2.2), nid + 1, dels⟩ : AggDb)
      tid name is2
      = (⟨(aggs ++ [(⟨nid, tid, aggPath nid (aggFilename name)⟩ : AggRow)]).map
            (fun a => if a.id = nid then { a with filePath := aggPath nid (aggFilename name) }
                      else a),
          ((issues ++ is1.map (fun x => IssueRow.mk nid x.1 x.2.1 x.2.2)).filter
            (fun i => i.aggregationId ≠ nid))
            ++ is2.map (fun x => IssueRow.mk nid x.1 x.2.1 x.2.2),
          nid + 1, dels ++ [aggPath nid (aggFilename name)]⟩, nid) := by
    simp only [performAggregationDb]
    rw [hfind2]
    simp only [if_pos (aggPath_ne_empty nid (aggFilename name))]
  rw [h1, h2]
  have hkept : ((issues ++ is1.map (fun x => IssueRow.mk nid x.1 x.2.1 x.2.2)).filter
      (fun i => i.aggregationId ≠ nid)) = issues := by
    rw [List.filter_append]
    have hl : issues.filter (fun i => i.aggregationId ≠ nid) = issues :=
      List.filter_eq_self.mpr (fun r hr => by simpa using hfresh r hr)
    have hr : (is1.map (fun x => IssueRow.mk nid x.1 x.2.1 x.2.2)).filter
        (fun i => i.aggregationId ≠ nid) = [] := by
      rw [List.filter_eq_nil_iff]
      rintro a ha
      rcases List.mem_map.mp ha with ⟨x, -, rfl⟩
      simp
    rw [hl, hr, List.append_nil]
  have haggs : ((aggs ++ [(⟨nid, tid, aggPath nid (aggFilename name)⟩ : AggRow)]).map
      (fun a => if a.id = nid then { a with filePath := aggPath nid (aggFilename name) }
                else a)).filter (fun a => a.taskId = tid)
      = [⟨nid, tid, aggPath nid (aggFilename name)⟩] := by
    rw [List.map_append, List.filter_append]
    have hl : (aggs.map
        (fun a => if a.id = nid then { a with filePath := aggPath nid (aggFilename name) }
                  else a)).filter (fun a => a.taskId = tid) = [] := by
      refine filter_map_none _ _ (fun x => ?_) aggs (fun x hx => ?_)
      · by_cases hid : x.id = nid <;> simp [hid]
      · have := List.find?_eq_none.mp hnone x hx
        simpa using this
    rw [hl, List.nil_append]
    simp
  refine ⟨rfl, rfl, haggs, rfl, by rw [hkept]⟩

/-- C8 witness: the amended idempotence evaluated on a fresh empty state
with two different computed issue sets. -/
theorem C8_amended_witness :
    (performAggregationDb ⟨[], [], 0, []⟩ 1 "T" [(5, "f", .INVALID)]).2 = 0 ∧
    (performAggregationDb (performAggregationDb ⟨[], [], 0, []⟩ 1 "T" [(5, "f", .INVALID)]).1
        1 "T" [(6, "g", .MISSING)]).2 = 0 ∧
    ((performAggregationDb (performAggregationDb ⟨[], [], 0, []⟩ 1 "T" [(5, "f", .INVALID)]).1
        1 "T" [(6, "g", .MISSING)]).1.aggs.filter (fun a => a.taskId = 1))
      = [⟨0, 1, aggPath 0 (aggFilename "T")⟩] ∧
    (performAggregationDb (performAggregationDb ⟨[], [], 0, []⟩ 1 "T" [(5, "f", .INVALID)]).1
        1 "T" [(6, "g", .MISSING)]).1.deletedArtifacts
      = [] ++ [aggPath 0 (aggFilename "T")] ∧
    (performAggregationDb (performAggregationDb ⟨[], [], 0, []⟩ 1 "T" [(5, "f", .INVALID)]).1
        1 "T" [(6, "g", .MISSING)]).1.issues
      = [] ++ [(6, "g", ErrorType.MISSING)].map (fun x => IssueRow.mk 0 x.1 x.2.1 x.2.2) :=
  C8_amended ⟨[], [], 0, []⟩ 1 "T" [(5, "f", .INVALID)] [(6, "g", .MISSING)] rfl
    (by simp)

/-- Auxiliary: a message at or before the watermark is never processed. -/
theorem sweep_skip_not_mem (s t : Int) (ht : t ≤ s) (msgs : List (Option Int)) :
    (some t : Option Int) ∉ (sweepMailbox (some s) msgs).2 := by
  induction msgs with
  | nil => simp [sweepMailbox]
  | cons m rest ih =>
    cases m with
    | none => simpa [sweepMailbox, skipMsg] using ih
    | some x =>
      by_cases hx : x ≤ s
      · simpa [sweepMailbox, skipMsg, hx] using ih
      · have hne : t ≠ x := fun he => hx (he ▸ ht)
        simp [sweepMailbox, skipMsg, hx, hne, ih]

/-- Auxiliary: with no watermark, every fetched message is processed. -/
theorem sweep_none_processed (msgs : List (Option Int)) :
    (sweepMailbox none msgs).2 = msgs := by
  induction msgs with
  | nil => rfl
  | cons m rest ih => simp [sweepMailbox, skipMsg, ih]

/-- Auxiliary: every processed message is a fetched message. -/
theorem sweep_processed_sub (since : Option Int) (msgs : List (Option Int)) :
    ∀ x, x ∈ (sweepMailbox since msgs).2 → x ∈ msgs := by
  induction msgs with
  | nil => simp [sweepMailbox]
  | cons m rest ih =>
    intro x hx
    by_cases h : skipMsg since m = true
    · exact List.mem_cons_of_mem _ (ih x (by simpa [sweepMailbox, h] using hx))
    · rcases (by simpa [sweepMailbox, h] using hx : x = m ∨ x ∈ (sweepMailbox since rest).2)
        with rfl | hx2
      · exact List.mem_cons_self _ _
      · exact List.mem_cons_of_mem _ (ih x hx2)

/-- Auxiliary: any fetched timestamp forces a latest-seen value at least
as large. -/
theorem sweep_latest_ub (since : Option Int) (msgs : List (Option Int)) (t : Int)
    (h : (some t : Option Int) ∈ msgs) :
    ∃ M, (sweepMailbox since msgs).1 = some M ∧ t ≤ M := by
  induction msgs with
  | nil => cases h
  | cons m rest ih =>
    rcases List.mem_cons.mp h with rfl | hmem
    · cases hr : (sweepMailbox since rest).1 with
      | none => exact ⟨t, by simp [sweepMailbox, optMax, hr], le_refl t⟩
      | some y => exact ⟨max t y, by simp [sweepMailbox, optMax, hr], le_max_left t y⟩
    · obtain ⟨M, hM, htM⟩ := ih hmem
      cases m with
      | none => exact ⟨M, by simp [sweepMailbox, optMax, hM], htM⟩
      | some x =>
        exact ⟨max x M, by simp [sweepMailbox, optMax, hM], le_trans htM (le_max_right x M)⟩

/-- Auxiliary: the latest-seen value bounds every fetched timestamp. -/
theorem sweep_latest_bound (since : Option Int) (msgs : List (Option Int)) (M : Int)
    (h : (sweepMailbox since msgs).1 = some M) :
    ∀ u, (some u : Option Int) ∈ msgs → u ≤ M := by
  intro u hu
  obtain ⟨M2, hM2, huM2⟩ := sweep_latest_ub since msgs u hu
  rw [h] at hM2
  exact (Option.some.inj hM2) ▸ huM2

/-- Auxiliary: the latest-seen value is the timestamp of some fetched
message. -/
theorem sweep_latest_mem (since : Option Int) (msgs : List (Option Int)) (M : Int)
    (h : (sweepMailbox since msgs).1 = some M) :
    (some M : Option Int) ∈ msgs := by
  induction msgs generalizing M with
  | nil => exact absurd h (by simp [sweepMailbox])
  | cons m rest ih =>
    simp only [sweepMailbox] at h
    cases m with
    | none =>
      cases hr : (sweepMailbox since rest).1 with
      | none => rw [hr] at h; exact absurd h (by simp [optMax])
      | some y =>
        rw [hr] at h
        have hy : y = M := Option.some.inj (by simpa [optMax] using h)
        subst hy
        exact List.mem_cons_of_mem _ (ih _ hr)
    | some x =>
      cases hr : (sweepMailbox since rest).1 with
      | none =>
        rw [hr] at h
        have hx : x = M := Option.some.inj (by simpa [optMax] using h)
        subst hx
        exact List.mem_cons_self _ _
      | some y =>
        rw [hr] at h
        have hmax : max x y = M := Option.some.inj (by simpa [optMax] using h)
        rcases max_choice x y with hc | hc
        · rw [hc] at hmax
          subst hmax
          exact List.mem_cons_self _ _
        · rw [hc] at hmax
          subst hmax
          exact List.mem_cons_of_mem _ (ih _ hr)

/-- Auxiliary: when the latest-seen timestamp is strictly beyond the
watermark, it belongs to a *processed* message. -/
theorem sweep_max_processed (s : Int) (msgs : List (Option Int)) (M : Int)
    (h : (sweepMailbox (some s) msgs).1 = some M) (hM : s < M) :
    (some M : Option Int) ∈ (sweepMailbox (some s) msgs).2 := by
  induction msgs generalizing M with
  | nil => exact absurd h (by simp [sweepMailbox])
  | cons m rest ih =>
    simp only [sweepMailbox] at h ⊢
    cases m with
    | none =>
      cases hr : (sweepMailbox (some s) rest).1 with
      | none => rw [hr] at h; exact absurd h (by simp [optMax])
      | some y =>
        rw [hr] at h
        have hy : y = M := Option.some.inj (by simpa [optMax] using h)
        subst hy
        exact List.mem_cons_of_mem _ (ih _ hr hM)
    | some x =>
      cases hr : (sweepMailbox (some s) rest).1 with
      | none =>
        rw [hr] at h
        have hx : x = M := Option.some.inj (by simpa [optMax] using h)
        subst hx
        rw [if_neg (by simp [skipMsg]; omega)]
        exact List.mem_cons_self _ _
      | some y =>
        rw [hr] at h
        have hmax : max x y = M := Option.some.inj (by simpa [optMax] using h)
        rcases max_choice x y with hc | hc
        · rw [hc] at hmax
          subst hmax
          rw [if_neg (by simp [skipMsg]; omega)]
          exact List.mem_cons_self _ _
        · rw [hc] at hmax
          subst hmax
          have hmem := ih _ hr hM
          by_cases hskip : skipMsg (some s) (some x) = true
          · rw [if_pos hskip]
            exact hmem
          · rw [if_neg hskip]
            exact List.mem_cons_of_mem _ hmem

/-- C10: the mailbox watermark behaves as claimed. (a) A message whose
timestamp is at or before the stored watermark is skipped. (b) When the
watermark file is missing or unreadable, the whole fetched history is
processed. (c) If some fetched message is strictly newer than the
watermark, the persisted watermark after the sweep is the greatest
timestamp among the processed messages (it belongs to a processed
message and bounds all of them). -/
theorem C10_watermark (file : TsFile) (msgs : List (Option Int)) :
    (∀ s t, readLastFetchTimestamp file = some s → t ≤ s →
      (some t : Option Int) ∉ (sweepMailbox (readLastFetchTimestamp file) msgs).2) ∧
    (readLastFetchTimestamp file = none →
      (sweepMailbox (readLastFetchTimestamp file) msgs).2 = msgs) ∧
    ((∃ t, (some t : Option Int) ∈ msgs ∧
        ∀ s, readLastFetchTimestamp file = some s → s < t) →
      ∃ M, (fetchEmailsJob file msgs).1 = .stored M ∧
        (some M : Option Int) ∈ (fetchEmailsJob file msgs).2 ∧
        ∀ u, (some u : Option Int) ∈ (fetchEmailsJob file msgs).2 → u ≤ M) := by
  refine ⟨?_, ?_, ?_⟩
  · intro s t hs ht
    rw [hs]
    exact sweep_skip_not_mem s t ht msgs
  · intro h
    rw [h]
    exact sweep_none_processed msgs
  · rintro ⟨t, htm, hnew⟩
    obtain ⟨M, hM1, htM⟩ := sweep_latest_ub (readLastFetchTimestamp file) msgs t htm
    refine ⟨M, by simp [fetchEmailsJob, hM1], ?_, ?_⟩
    · show (some M : Option Int) ∈ (sweepMailbox (readLastFetchTimestamp file) msgs).2
      cases hf : readLastFetchTimestamp file with
      | none =>
        rw [hf] at hM1
        rw [sweep_none_processed]
        exact sweep_latest_mem none msgs M hM1
      | some s =>
        rw [hf] at hM1
        exact sweep_max_processed s msgs M hM1 (lt_of_lt_of_le (hnew s hf) htM)
    · intro u hu
      have hu2 : (some u : Option Int) ∈ msgs :=
        sweep_processed_sub (readLastFetchTimestamp file) msgs _ hu
      exact sweep_latest_bound (readLastFetchTimestamp file) msgs M hM1 u hu2

/-- C10 witness: watermark 5, messages at 3 and 10 — the old message is
skipped, the new one is processed, and the stored watermark becomes 10. -/
theorem C10_watermark_witness :
    ∃ M, (fetchEmailsJob (.stored 5) [some 3, some 10]).1 = .stored M ∧
      (some M : Option Int) ∈ (fetchEmailsJob (.stored 5) [some 3, some 10]).2 ∧
      ∀ u, (some u : Option Int) ∈ (fetchEmailsJob (.stored 5) [some 3, some 10]).2 → u ≤ M :=
  (C10_watermark (.stored 5) [some 3, some 10]).2.2
    ⟨10, by decide, fun s hs => by injection hs with h; omega⟩

end Mailmerge
